import Mathlib

/-!
# Verification of the middleware dispatch engine

A shallow embedding, in Lean 4, of the gin-style HTTP middleware engine in
`engine.go` (package `engine`): the `Context` execution driver (`Next`,
`Abort`, `Fail`, `Error`, `Set`, `Get`, `ParseBody`, `EnsureBody`, `JSON`),
the `RouterGroup` tree (`Use`, `Group`, `Handle`, the per-method shortcuts,
`allHandlers`) and the `Engine` 404 fallback (`NotFound404`, `handle404`).

Modelling conventions:
* Go `interface{}` values are modelled by the inductive `Val`.
* The `int8` cursor arithmetic is modelled on `Int` with an explicit
  wrap-around at 2^8 (`int8wrap`), exactly where the Go code converts.
* Handler bodies are deep-embedded as lists of primitive actions (`Act`),
  so that the dispatcher's control flow (which chain positions it invokes,
  in which order) is observable; the `Ctx.invoked` field is the dispatch
  trace and `Ctx.events` is the ordered trace of response-writer calls.
* Mutation-by-pointer on the `RouterGroup` tree is modelled by a store
  (list) of group records addressed by index, so that a child holding a
  reference to its parent is a child holding the parent's index.
* Functions whose Go counterparts may fail to terminate (`allHandlers`,
  the `Next` loop) take explicit fuel and return `Option`; `none` means
  the Go original panics, overflows the stack, or ran past the fuel.
-/

namespace Engine

/-- A Go `interface{}` value, as far as the engine inspects one: the engine
only ever stores these, compares them to `nil`, and echoes them back. -/
inductive Val where
  | vnil : Val
  | vstr (s : String) : Val
  | vint (n : Int) : Val
  | vbool (b : Bool) : Val
  deriving DecidableEq, Repr

/-- A Go `error` value: the engine only ever calls `err.Error()`. -/
structure GoError where
  msg : String
  deriving DecidableEq, Repr

/-- The `ErrorMsg` record of `engine.go`: a `(message, meta)` pair collected
on the context's error list. -/
structure ErrorMsg where
  message : String
  meta : Val
  deriving DecidableEq, Repr

/-- One interaction with the wrapped `http.ResponseWriter`, in call order:
a `WriteHeader` call, a `Header().Set` call, or a body `Write`. -/
inductive REvent where
  | status (code : Int) : REvent
  | header (k v : String) : REvent
  | body (chunk : String) : REvent
  deriving DecidableEq, Repr

/-- Wrap an integer into the `int8` range, as Go's `int8(...)` conversion
does (two's complement truncation). -/
def int8wrap (n : Int) : Int := (n + 128) % 256 - 128

/-- The Go statement `i++` on an `int8` variable. -/
def int8inc (n : Int) : Int := int8wrap (n + 1)

/-- The Go conversion `int8(n)` applied to a (nonnegative) length. -/
def int8ofNat (n : Nat) : Int := int8wrap n

/-- The abort sentinel of `engine.go`: `math.MaxInt8 / 2`. -/
def AbortIndex : Int := 127 / 2

/-- The per-request `Context` of `engine.go`, together with the wrapped
response writer's state (`status`) and the observation traces. `index` is
the `int8` handler cursor, `status` is `responseWriter.status` (0 while no
status line has been written), `errors` is the collected error list and
`keys` the lazily allocated metadata map (`none` = the Go `nil` map).
`events` records every call made on the response writer, in order, and
`invoked` records which chain positions the dispatcher invoked, in order;
both are observation traces, not Go fields. -/
structure Ctx where
  index : Int := -1
  status : Int := 0
  events : List REvent := []
  invoked : List Nat := []
  trace : List Nat := []
  errors : List ErrorMsg := []
  keys : Option (List (String × Val)) := none
  deriving DecidableEq, Repr

/-- The context a fresh request starts from (`createContext`): cursor at
`-1`, nothing written, no errors, `nil` metadata map. -/
def createContext : Ctx := {}

/-- `responseWriter.WriteHeader`: forwards to the underlying writer and
records the status code. -/
def writeHeaderW (c : Ctx) (code : Int) : Ctx :=
  { c with status := code, events := c.events ++ [REvent.status code] }

/-- `Header().Set(k, v)` on the wrapped writer. -/
def setHeaderW (c : Ctx) (k v : String) : Ctx :=
  { c with events := c.events ++ [REvent.header k v] }

/-- A body `Write` on the wrapped writer. -/
def writeBodyW (c : Ctx) (chunk : String) : Ctx :=
  { c with events := c.events ++ [REvent.body chunk] }

/-- `responseWriter.Written()`: whether a status line has been recorded. -/
def Written (c : Ctx) : Bool := c.status != 0

/-- `Context.Abort`: write `code` as the status, then force the cursor to
the sentinel `AbortIndex`. -/
def Abort (c : Ctx) (code : Int) : Ctx :=
  { writeHeaderW c code with index := AbortIndex }

/-- `Context.Error`: append an `ErrorMsg` built from `err.Error()` and the
meta value to the error list. -/
def Error (c : Ctx) (err : GoError) (meta : Val) : Ctx :=
  { c with errors := c.errors ++ [{ message := err.msg, meta := meta }] }

/-- `Context.Fail`: `Error(err, "Operation aborted")` then `Abort(code)`. -/
def Fail (c : Ctx) (code : Int) (err : GoError) : Ctx :=
  Abort (Error c err (Val.vstr "Operation aborted")) code

/-- Go map assignment `m[k] = v` on an association list model. -/
def assocSet : List (String × Val) → String → Val → List (String × Val)
  | [], k, v => [(k, v)]
  | (k', v') :: rest, k, v =>
      if k' = k then (k, v) :: rest else (k', v') :: assocSet rest k v

/-- Go map lookup `m[k]` on an association list model (`none` = the comma-ok
form returned `ok = false`). -/
def assocGet : List (String × Val) → String → Option Val
  | [], _ => none
  | (k', v') :: rest, k => if k' = k then some v' else assocGet rest k

/-- `Context.Set`: lazily allocate the `Keys` map on first use, then insert
or overwrite. -/
def Set (c : Ctx) (k : String) (v : Val) : Ctx :=
  match c.keys with
  | none => { c with keys := some (assocSet [] k v) }
  | some m => { c with keys := some (assocSet m k v) }

/-- `Context.Get`: look up `key`; `none` models the Go `panic` taken when
the comma-ok lookup fails or the stored value is the `nil` interface. -/
def Get (c : Ctx) (k : String) : Option Val :=
  let p : Val × Bool :=
    match c.keys with
    | some m =>
        match assocGet m k with
        | some v => (v, true)
        | none => (Val.vnil, false)
    | none => (Val.vnil, false)
  if p.2 = false ∨ p.1 = Val.vnil then none else some p.1

/-- A sequence of `Set` calls, applied left to right. -/
def applySets (c : Ctx) (ops : List (String × Val)) : Ctx :=
  ops.foldl (fun a p => Set a p.1 p.2) c

/-- `Context.ParseBody`: the JSON decode and the validation pass are
external collaborators, so their outcomes are parameters. The Go body is
`if err := decoder.Decode(&item); err != nil { return Validate(c, item) }
else { return err }` - on a decode failure it returns the validation
outcome, and in the `else` branch `err` is `nil`. -/
def ParseBody (decodeRes validateRes : Option GoError) : Option GoError :=
  match decodeRes with
  | some _ => validateRes
  | none => none

/-- `Context.EnsureBody`: run `ParseBody`; on any error, `Fail(400, err)`
and report `false`, otherwise report `true`. -/
def EnsureBody (c : Ctx) (decodeRes validateRes : Option GoError) :
    Ctx × Bool :=
  match ParseBody decodeRes validateRes with
  | some err => (Fail c 400 err, false)
  | none => (c, true)

/-- The standard library's `http.Error(w, msg, code)`: sets a plain-text
content type, writes the status, then writes `msg` and a newline. -/
def httpError (c : Ctx) (msg : String) (code : Int) : Ctx :=
  writeBodyW
    (writeHeaderW (setHeaderW c "Content-Type" "text/plain; charset=utf-8")
      code)
    (msg ++ "\n")

/-- `Context.JSON`: write the status code, set the JSON content type, then
encode `obj` to the body. The encoder is an external collaborator: `objRepr`
is the serialization it would produce and `encodeRes` its error outcome
(`json.Encoder.Encode` writes nothing when marshalling fails). On failure,
record the error with the object as meta, then `http.Error(..., 500)`. -/
def JSON (c : Ctx) (code : Int) (obj : Val) (objRepr : String)
    (encodeRes : Option GoError) : Ctx :=
  let c1 := setHeaderW (writeHeaderW c code) "Content-Type" "application/json"
  match encodeRes with
  | none => writeBodyW c1 objRepr
  | some err => httpError (Error c1 err obj) err.msg 500

/-! ## Handler chains and the dispatch loop

A handler body is deep-embedded as a list of primitive actions, so the
dispatcher's control flow is a function of data and the execution order is
observable. `tell` is an inert, observable statement (a log line); the other
actions are the `Context` methods a handler can call. -/

/-- One primitive statement of a handler body. -/
inductive Act where
  | tell (id : Nat) : Act
  | next : Act
  | abort (code : Int) : Act
  | writeHeader (code : Int) : Act
  deriving DecidableEq, Repr

/-- A handler (`HandlerFunc`) is its body: a list of actions run in order. -/
abbrev Handler := List Act

/-- A handler chain, as stored in `Context.handlers`. -/
abbrev Chain := List Handler

mutual

/-- Run the remaining actions of one handler body, left to right. `none`
means the fuel ran out. -/
def runActs : Nat → Chain → List Act → Ctx → Option Ctx
  | 0, _, _, _ => none
  | _ + 1, _, [], c => some c
  | fuel + 1, ch, a :: as, c =>
      match execAct fuel ch a c with
      | some c' => runActs fuel ch as c'
      | none => none

/-- Execute one action. -/
def execAct : Nat → Chain → Act → Ctx → Option Ctx
  | 0, _, _, _ => none
  | _ + 1, _, Act.tell i, c => some { c with trace := c.trace ++ [i] }
  | _ + 1, _, Act.abort code, c => some (Abort c code)
  | _ + 1, _, Act.writeHeader code, c => some (writeHeaderW c code)
  | fuel + 1, ch, Act.next, c => nextRun fuel ch c

/-- `Context.Next`: `c.index++`, then `s := int8(len(c.handlers))`, then the
drain loop `for ; c.index < s; c.index++ { c.handlers[c.index](c) }`. -/
def nextRun : Nat → Chain → Ctx → Option Ctx
  | 0, _, _ => none
  | fuel + 1, ch, c =>
      nextLoop fuel ch (int8ofNat ch.length) { c with index := int8inc c.index }

/-- The body of `Next`'s `for` loop: test `c.index < s`, invoke the handler
at `c.index` (recording the position on the dispatch trace), `c.index++`,
repeat. A negative or out-of-range index is the Go slice-bounds panic,
returned as `none`. -/
def nextLoop : Nat → Chain → Int → Ctx → Option Ctx
  | 0, _, _, _ => none
  | fuel + 1, ch, s, c =>
      if c.index < s then
        if h : 0 ≤ c.index ∧ c.index.toNat < ch.length then
          match runActs fuel ch (ch.get ⟨c.index.toNat, h.2⟩)
              { c with invoked := c.invoked ++ [c.index.toNat] } with
          | some c' => nextLoop fuel ch s { c' with index := int8inc c'.index }
          | none => none
        else none
      else some c

end

/-! ## RouterGroup store

`RouterGroup` values are mutated through shared pointers in Go (`Use`
appends in place, children point at their parent), so the tree is modelled
as a store of group records addressed by position; a parent reference is an
index into the store. -/

/-- One `RouterGroup` record: its own middleware list, its path prefix and
its parent reference (`none` at the root). The `engine` back-reference
carries no dispatch semantics and is omitted. -/
structure GroupData (α : Type) where
  Handlers : List α
  pfx : String
  parent : Option Nat
  deriving DecidableEq, Repr

/-- The group tree: a store of group records; index 0 is the root. -/
abbrev Store (α : Type) := List (GroupData α)

/-- Replace the record at index `i` by `f` of itself. -/
def storeModify {α : Type} : Store α → Nat → (GroupData α → GroupData α) → Store α
  | [], _, _ => []
  | g :: rest, 0, f => f g :: rest
  | g :: rest, n + 1, f => g :: storeModify rest n f

/-- `RouterGroup.Use`: append middleware to the group's own list, in
place. -/
def Use {α : Type} (st : Store α) (i : Nat) (middleware : List α) : Store α :=
  storeModify st i (fun g => { g with Handlers := g.Handlers ++ middleware })

/-- A simplified model of the standard library's `path.Join` (an external
collaborator): join with a separator, collapsing a doubled one; no claim
in this development depends on its exact cleaning behaviour. -/
def pathJoin (a b : String) : String :=
  if a = "" then b
  else if b = "" then a
  else if a.data.getLast? = some '/' then
    a ++ String.mk (b.data.dropWhile (fun ch => ch = '/'))
  else a ++ "/" ++ String.mk (b.data.dropWhile (fun ch => ch = '/'))

/-- The prefix of the group at index `i` (empty on a dangling index, which
the Go code cannot produce). -/
def pfxOf {α : Type} (st : Store α) (i : Nat) : String :=
  match st[i]? with
  | some g => g.pfx
  | none => ""

/-- `RouterGroup.Group`: append a fresh child record whose prefix is the
parent's prefix joined with `component`, whose own middleware is `handlers`
and whose parent reference is `i`; return the new store and the child's
index. -/
def Group {α : Type} (st : Store α) (i : Nat) (component : String)
    (handlers : List α) : Store α × Nat :=
  (st ++ [{ Handlers := handlers, pfx := pathJoin (pfxOf st i) component,
            parent := some i }], st.length)

/-- `RouterGroup.allHandlers`, exactly as written in the source:
`local := append(group.Handlers, handlers...)`, and when the group has a
parent it recurses on `group` itself (`group.allHandlers(local)`), not on
the parent; `none` means the fuel ran out, which the induction below turns
into nontermination for every group with a parent. -/
def allHandlersFuel {α : Type} : Nat → Store α → Nat → List α → Option (List α)
  | 0, _, _, _ => none
  | fuel + 1, st, i, hs =>
      match st[i]? with
      | none => none
      | some g =>
          let acc := g.Handlers ++ hs
          match g.parent with
          | some _ => allHandlersFuel fuel st i acc
          | none => some acc

/-- Modelled from the spec: the chain composition `allHandlers` is
documented to perform, "walking from this group up through every ancestor
to the root, concatenating each ancestor's middleware in root-to-leaf order
followed by the route's own handlers last" - i.e. the recursive call goes
to the parent, which the source's `allHandlers` does not do. -/
def allHandlersSpec {α : Type} : Nat → Store α → Nat → List α → Option (List α)
  | 0, _, _, _ => none
  | fuel + 1, st, i, hs =>
      match st[i]? with
      | none => none
      | some g =>
          let acc := g.Handlers ++ hs
          match g.parent with
          | some p => allHandlersSpec fuel st p acc
          | none => some acc

/-- What `RouterGroup.Handle` registers with the dispatcher: the method
string, the joined path, and the composed chain (`none` when composing it
does not terminate). -/
structure Registration (α : Type) where
  method : String
  rpath : String
  chain : Option (List α)
  deriving DecidableEq, Repr

/-- `RouterGroup.Handle`: join the group prefix with `p`, compose the chain
with `allHandlers`, register under `method`. -/
def Handle {α : Type} (fuel : Nat) (st : Store α) (i : Nat) (method p : String)
    (handlers : List α) : Registration α :=
  { method := method, rpath := pathJoin (pfxOf st i) p,
    chain := allHandlersFuel fuel st i handlers }

/-- `RouterGroup.POST`, exactly as written: it takes a `method` argument of
its own and forwards it to `Handle` - it does not fix the method string. -/
def POST {α : Type} (fuel : Nat) (st : Store α) (i : Nat) (method p : String)
    (handlers : List α) : Registration α :=
  Handle fuel st i method p handlers

/-- `RouterGroup.GET`: `Handle("GET", path, handlers)`. -/
def GET {α : Type} (fuel : Nat) (st : Store α) (i : Nat) (p : String)
    (handlers : List α) : Registration α :=
  Handle fuel st i "GET" p handlers

/-- `RouterGroup.DELETE`: `Handle("DELETE", path, handlers)`. -/
def DELETE {α : Type} (fuel : Nat) (st : Store α) (i : Nat) (p : String)
    (handlers : List α) : Registration α :=
  Handle fuel st i "DELETE" p handlers

/-- `RouterGroup.PATCH`: `Handle("PATCH", path, handlers)`. -/
def PATCH {α : Type} (fuel : Nat) (st : Store α) (i : Nat) (p : String)
    (handlers : List α) : Registration α :=
  Handle fuel st i "PATCH" p handlers

/-- `RouterGroup.PUT`: `Handle("PUT", path, handlers)`. -/
def PUT {α : Type} (fuel : Nat) (st : Store α) (i : Nat) (p : String)
    (handlers : List α) : Registration α :=
  Handle fuel st i "PUT" p handlers

/-! ## Engine and the 404 fallback -/

/-- The `Engine`: the root group (index 0 of the store) plus the fallback
chain. The `httprouter` dispatcher and the template set are external
collaborators and carry no dispatch semantics. -/
structure EngineM where
  groups : Store Handler
  handlers404 : List Handler
  deriving DecidableEq, Repr

/-- `New()`: a blank engine whose root group is `RouterGroup{nil, "/", nil,
engine}` and whose 404 chain is empty. -/
def New : EngineM :=
  { groups := [{ Handlers := [], pfx := "/", parent := none }],
    handlers404 := [] }

/-- `Engine.NotFound404`: replace the fallback chain. -/
def NotFound404 (e : EngineM) (handlers : List Handler) : EngineM :=
  { e with handlers404 := handlers }

/-- `Engine.handle404`: compose `engine.allHandlers(engine.handlers404)`
(the root group's middleware before the 404 handlers), build a fresh
context over that chain, run `c.Next()`, and report `true` exactly when the
bare `http.NotFound` response is written, i.e. when `!c.Writer.Written()`
afterwards. -/
def handle404 (fuel : Nat) (e : EngineM) : Option (Ctx × Bool) :=
  match allHandlersFuel fuel e.groups 0 e.handlers404 with
  | none => none
  | some hs =>
      match nextRun fuel hs createContext with
      | none => none
      | some c => some (c, !Written c)

/-! ## Concrete fixtures used by the theorems -/

/-- A test-harness chain family: `N` handlers, where handler `j` logs its own
position and the handler at position `i` additionally calls `Abort code`. -/
def mkChain (N i : Nat) (code : Int) : Chain :=
  (List.range N).map (fun j => if j = i then [Act.tell j, Act.abort code] else [Act.tell j])

/-- A 65-handler chain whose first handler calls `Abort(403)` and whose other
handlers only log their position. -/
def chain65 : Chain := [Act.abort 403] :: (List.range 64).map (fun j => [Act.tell (j + 1)])

/-- A 128-handler chain (of do-nothing handlers): long enough that the Go
conversion `int8(len(c.handlers))` wraps around. -/
def chain128 : Chain := List.replicate 128 []

/-- The raw comma-ok lookup `c.Keys[key]` as `Get` performs it, before the
panic check (`none` = `ok` was `false`, including on the `nil` map). -/
def keysLookup (c : Ctx) (k : String) : Option Val :=
  match c.keys with
  | none => none
  | some m => assocGet m k

/-- A three-level group hierarchy: root with middleware `1` (M1), child with
middleware `2` (M2), grandchild with middleware `3` (M3); handler ids stand
for `HandlerFunc` values. -/
def demoStore : Store Nat := [⟨[1], "/", none⟩, ⟨[2], "/a", some 0⟩, ⟨[3], "/a/b", some 1⟩]

/-- A root group carrying middleware `1` (M1), before any child exists. -/
def st0C3 : Store Nat := [⟨[1], "/", none⟩]

/-- A bare root group with no middleware. -/
def rootStoreNat : Store Nat := [⟨[], "/", none⟩]

/-! ## Arithmetic and stepping lemmas -/

theorem int8ofNat_small {n : Nat} (h : n ≤ 127) : int8ofNat n = n := by
  unfold int8ofNat int8wrap; omega

theorem int8inc_small {n : Int} (h1 : -129 ≤ n) (h2 : n ≤ 126) : int8inc n = n + 1 := by
  unfold int8inc int8wrap; omega

theorem int8inc_abortIndex : int8inc AbortIndex = 64 := by decide

theorem int8inc_neg_one : int8inc createContext.index = ((0 : Nat) : Int) := by decide

theorem int8wrap_bounds (n : Int) : -128 ≤ int8wrap n ∧ int8wrap n ≤ 127 := by
  unfold int8wrap; omega

theorem mkChain_length (N i : Nat) (code : Int) : (mkChain N i code).length = N := by
  simp [mkChain]

theorem mkChain_get (N i k : Nat) (code : Int) (h : k < (mkChain N i code).length) :
    (mkChain N i code).get ⟨k, h⟩ =
      if k = i then [Act.tell k, Act.abort code] else [Act.tell k] := by
  simp [mkChain, List.get_eq_getElem, List.getElem_map, List.getElem_range]

theorem nextLoop_succ (fuel : Nat) (ch : Chain) (s : Int) (c : Ctx) :
    nextLoop (fuel + 1) ch s c =
      if c.index < s then
        if h : 0 ≤ c.index ∧ c.index.toNat < ch.length then
          match runActs fuel ch (ch.get ⟨c.index.toNat, h.2⟩)
              { c with invoked := c.invoked ++ [c.index.toNat] } with
          | some c' => nextLoop fuel ch s { c' with index := int8inc c'.index }
          | none => none
        else none
      else some c := rfl

theorem nextLoop_exit (fuel : Nat) (ch : Chain) (s : Int) (c : Ctx) (h : ¬ c.index < s) :
    nextLoop (fuel + 1) ch s c = some c := by
  rw [nextLoop_succ, if_neg h]

theorem runActs_nil (fuel : Nat) (ch : Chain) (c : Ctx) :
    runActs (fuel + 1) ch [] c = some c := rfl

theorem runActs_tell (fuel : Nat) (ch : Chain) (id : Nat) (as : List Act) (c : Ctx) :
    runActs (fuel + 2) ch (Act.tell id :: as) c =
      runActs (fuel + 1) ch as { c with trace := c.trace ++ [id] } := rfl

theorem runActs_abort (fuel : Nat) (ch : Chain) (code : Int) (as : List Act) (c : Ctx) :
    runActs (fuel + 2) ch (Act.abort code :: as) c =
      runActs (fuel + 1) ch as (Abort c code) := rfl

theorem runActs_tell_only (fuel : Nat) (ch : Chain) (id : Nat) (c : Ctx) :
    runActs (fuel + 2) ch [Act.tell id] c = some { c with trace := c.trace ++ [id] } := rfl

theorem runActs_tell_abort (fuel : Nat) (ch : Chain) (id : Nat) (code : Int) (c : Ctx) :
    runActs (fuel + 3) ch [Act.tell id, Act.abort code] c =
      some (Abort { c with trace := c.trace ++ [id] } code) := rfl

theorem nextRun_succ (fuel : Nat) (ch : Chain) (c : Ctx) :
    nextRun (fuel + 1) ch c =
      nextLoop fuel ch (int8ofNat ch.length) { c with index := int8inc c.index } := rfl

theorem nextRun_aborted (fuel : Nat) (ch : Chain) (c : Ctx)
    (hlen : ch.length ≤ 64) (hidx : c.index = AbortIndex) :
    nextRun (fuel + 2) ch c = some { c with index := 64 } := by
  rw [nextRun_succ, hidx, int8inc_abortIndex]
  refine nextLoop_exit _ _ _ _ ?_
  have hs : int8ofNat ch.length = ch.length := int8ofNat_small (by omega)
  simp only [hs]
  omega

theorem nextLoop_invoke (fuel : Nat) (ch : Chain) (s : Int) (c c2 : Ctx) (k : Nat)
    (hidx : c.index = (k : Int)) (hcond : (k : Int) < s) (hk : k < ch.length)
    (hrun : runActs fuel ch (ch.get ⟨k, hk⟩) { c with invoked := c.invoked ++ [k] } = some c2) :
    nextLoop (fuel + 1) ch s c = nextLoop fuel ch s { c2 with index := int8inc c2.index } := by
  rw [nextLoop_succ, hidx]
  simp only [Int.toNat_natCast]
  rw [if_pos hcond]
  have hb : (0 : Int) ≤ (k : Int) ∧ k < ch.length := ⟨Int.natCast_nonneg k, hk⟩
  rw [hidx] at hrun
  rw [dif_pos hb, hrun]

theorem nextLoop_drain (N i : Nat) (code : Int) (hiN : i < N) (hN : N ≤ 64) :
    ∀ (d fuel k : Nat) (c : Ctx), k + d = i → c.index = (k : Int) → d + 4 ≤ fuel →
      nextLoop fuel (mkChain N i code) (int8ofNat N) c =
        some { c with index := 64,
                      invoked := c.invoked ++ List.range' k (d + 1),
                      trace := c.trace ++ List.range' k (d + 1),
                      status := code,
                      events := c.events ++ [REvent.status code] } := by
  intro d
  induction d with
  | zero =>
    intro fuel k c hk hidx hfuel
    obtain rfl : k = i := by omega
    obtain ⟨f, rfl⟩ : ∃ f, fuel = f + 4 := ⟨fuel - 4, by omega⟩
    have hsN : int8ofNat N = (N : Int) := int8ofNat_small (by omega)
    have hlen : k < (mkChain N k code).length := by rw [mkChain_length]; exact hiN
    rw [hsN]
    rw [show f + 4 = (f + 3) + 1 from rfl]
    rw [nextLoop_invoke (f + 3) _ _ c
        (Abort { c with invoked := c.invoked ++ [k], trace := c.trace ++ [k] } code) k hidx
        (by exact_mod_cast hiN) hlen
        (by rw [mkChain_get N k k code hlen, if_pos rfl,
                show f + 3 = f + 3 from rfl, runActs_tell_abort f _ k code])]
    have habix : (Abort { c with invoked := c.invoked ++ [k], trace := c.trace ++ [k] } code).index
        = AbortIndex := rfl
    rw [habix, int8inc_abortIndex]
    rw [show f + 3 = (f + 2) + 1 from rfl]
    rw [nextLoop_exit _ _ _ _ (by show ¬ (64 : Int) < (N : Int); omega)]
    simp [Abort, writeHeaderW, List.range'_one]
  | succ d ih =>
    intro fuel k c hk hidx hfuel
    have hki : k < i := by omega
    have hkN : k < N := by omega
    obtain ⟨f, rfl⟩ : ∃ f, fuel = f + 5 := ⟨fuel - 5, by omega⟩
    have hsN : int8ofNat N = (N : Int) := int8ofNat_small (by omega)
    have hlen : k < (mkChain N i code).length := by rw [mkChain_length]; exact hkN
    rw [hsN]
    rw [show f + 5 = (f + 4) + 1 from rfl]
    rw [nextLoop_invoke (f + 4) _ _ c
        { c with invoked := c.invoked ++ [k], trace := c.trace ++ [k] } k hidx
        (by exact_mod_cast hkN) hlen
        (by rw [mkChain_get N i k code hlen, if_neg (by omega),
                show f + 4 = (f + 2) + 2 from rfl, runActs_tell_only])]
    have hix : ({ c with invoked := c.invoked ++ [k], trace := c.trace ++ [k] } : Ctx).index
        = (k : Int) := hidx
    rw [hix, int8inc_small (by omega) (by omega),
        show ((k : Int) + 1) = ((k + 1 : Nat) : Int) from by push_cast; ring]
    rw [← hsN]
    rw [ih (f + 4) (k + 1)
        { c with invoked := c.invoked ++ [k], trace := c.trace ++ [k], index := ((k + 1 : Nat) : Int) }
        (by omega) rfl (by omega)]
    rw [show List.range' k (d + 1 + 1) = k :: List.range' (k + 1) (d + 1) from
        List.range'_succ k (d + 1) 1]
    simp

theorem assocGet_assocSet_self (m : List (String × Val)) (k : String) (v : Val) :
    assocGet (assocSet m k v) k = some v := by
  induction m with
  | nil => simp [assocSet, assocGet]
  | cons p rest ih =>
    obtain ⟨k', v'⟩ := p
    by_cases h : k' = k
    · simp [assocSet, assocGet, h]
    · simp [assocSet, assocGet, h, ih]

theorem assocGet_assocSet_ne (m : List (String × Val)) (k' k : String) (v : Val)
    (h : k' ≠ k) : assocGet (assocSet m k' v) k = assocGet m k := by
  induction m with
  | nil => simp [assocSet, assocGet, h]
  | cons p rest ih =>
    obtain ⟨k'', v''⟩ := p
    by_cases h2 : k'' = k'
    · subst h2
      simp [assocSet, assocGet, h]
    · by_cases h3 : k'' = k <;> simp [assocSet, assocGet, h2, h3, ih, Ne.symm h]

theorem keysLookup_set_self (c : Ctx) (k : String) (v : Val) :
    keysLookup (Set c k v) k = some v := by
  cases hc : c.keys <;> simp [Set, keysLookup, hc, assocGet_assocSet_self]

theorem keysLookup_set_ne (c : Ctx) (k' k : String) (v : Val) (h : k' ≠ k) :
    keysLookup (Set c k' v) k = keysLookup c k := by
  cases hc : c.keys <;>
    simp [Set, keysLookup, hc, assocGet_assocSet_ne _ _ _ _ h, assocGet]
  simp [h]

theorem Get_eq (c : Ctx) (k : String) :
    Get c k = match keysLookup c k with
      | none => none
      | some v => if v = Val.vnil then none else some v := by
  cases hc : c.keys with
  | none => simp [Get, keysLookup, hc]
  | some m =>
    cases hm : assocGet m k with
    | none => simp [Get, keysLookup, hc, hm]
    | some v =>
      by_cases hv : v = Val.vnil <;> simp [Get, keysLookup, hc, hm, hv]

theorem keysLookup_applySets (ops : List (String × Val)) :
    ∀ (c : Ctx) (k : String), (∀ p ∈ ops, p.1 ≠ k) →
      keysLookup (applySets c ops) k = keysLookup c k := by
  induction ops with
  | nil => intro c k _; rfl
  | cons p rest ih =>
    intro c k h
    rw [show applySets c (p :: rest) = applySets (Set c p.1 p.2) rest from rfl]
    rw [ih _ k (fun q hq => h q (List.mem_cons_of_mem p hq))]
    exact keysLookup_set_ne _ _ _ _ (h p (List.mem_cons_self p rest))

theorem allHandlers_stuck {α : Type} (st : Store α) (i : Nat) (g : GroupData α)
    (hg : st[i]? = some g) (hp : g.parent.isSome) :
    ∀ (fuel : Nat) (hs : List α), allHandlersFuel fuel st i hs = none := by
  intro fuel
  induction fuel with
  | zero => intro hs; rfl
  | succ f ih =>
    intro hs
    obtain ⟨p, hp'⟩ := Option.isSome_iff_exists.mp hp
    simp only [allHandlersFuel, hg, hp']
    exact ih _

/-! ## The claims -/

/-- Claim C1: for a route registered on a group with ancestors, the composed
chain should be every ancestor's middleware in root-to-leaf order followed by
the route's own handlers (here M1, M2, M3, H). The source's `allHandlers`
cannot produce it: because it recurses on the same group instead of its
parent, composition never terminates for any group with a parent (first
conjunct, for every fuel), while the walk the spec describes yields exactly
`[M1, M2, M3, H]` (second conjunct). -/
theorem chain_composition_c1 :
    (∀ (fuel : Nat) (hs : List Nat), allHandlersFuel fuel demoStore 2 hs = none)
    ∧ allHandlersSpec 3 demoStore 2 [4] = some [1, 2, 3, 4] := by
  refine ⟨fun fuel hs => allHandlers_stuck demoStore 2 ⟨[3], "/a/b", some 1⟩ rfl rfl fuel hs, ?_⟩
  decide

/-- Claim C2, counterexample: in a 65-handler chain whose handler 0 calls
`Abort(403)`, the dispatcher still invokes the handler at position 64
(`invoked = [0, 64]`), because `Abort` parks the cursor at `AbortIndex = 63`
and the loop's `c.index++` then lands exactly on position 64, which is still
below the chain length. So, as stated - for every chain - the claim is
false; the recorded status does equal 403. -/
theorem abort_counterexample_65 :
    chain65.length = 65
    ∧ (nextRun 50 chain65 createContext).map (fun c => (c.invoked, c.status))
        = some ([0, 64], 403) := by decide

/-- Claim C2, amended: in a chain of at most 64 handlers, if the handler at
position `i` calls `Abort(code)`, no handler at a position greater than `i`
is ever invoked (`invoked` and the log stop at `i`) and the recorded status
equals `code`; moreover (second conjunct) once the cursor sits at
`AbortIndex`, a further `Next()` call on any chain of at most 64 handlers
invokes no handler at all - even an enclosing handler calling `Next()`
again cannot restart the chain. -/
theorem abort_short_circuit_le64 (N i : Nat) (code : Int) (hiN : i < N) (hN : N ≤ 64) :
    ((nextRun (2 * N + 8) (mkChain N i code) createContext).map
        (fun c => (c.invoked, c.trace, c.status))
      = some (List.range (i + 1), List.range (i + 1), code))
    ∧ (∀ (ch : Chain) (c : Ctx) (fuel : Nat), ch.length ≤ 64 → c.index = AbortIndex →
        nextRun (fuel + 2) ch c = some { c with index := 64 }) := by
  constructor
  · obtain ⟨f, hf⟩ : ∃ f, 2 * N + 8 = f + 1 ∧ i + 4 ≤ f := ⟨2 * N + 7, by omega, by omega⟩
    rw [hf.1, nextRun_succ, int8inc_neg_one]
    have hlen : (mkChain N i code).length = N := mkChain_length N i code
    rw [hlen]
    rw [nextLoop_drain N i code hiN hN i f 0 _ (by omega) rfl (by omega)]
    simp [createContext, List.range_eq_range']
  · exact fun ch c fuel h1 h2 => nextRun_aborted fuel ch c h1 h2

/-- Witness for the amended C2 theorem at the concrete chain `mkChain 2 0
403`. -/
theorem abort_short_circuit_le64_witness :
    (0 < 2 ∧ 2 ≤ 64)
    ∧ (((nextRun (2 * 2 + 8) (mkChain 2 0 403) createContext).map
          (fun c => (c.invoked, c.trace, c.status))
        = some (List.range (0 + 1), List.range (0 + 1), 403))
      ∧ (∀ (ch : Chain) (c : Ctx) (fuel : Nat), ch.length ≤ 64 → c.index = AbortIndex →
          nextRun (fuel + 2) ch c = some { c with index := 64 })) :=
  ⟨⟨by decide, by decide⟩, abort_short_circuit_le64 2 0 403 (by decide) (by decide)⟩

/-- Claim C3: middleware appended to the root via `Use` after a child group
was created, but before a route is registered on the child, should be in the
chain composed for that route. The source cannot compose any chain for a
route on a child group - `allHandlers` recurses on the same group and never
terminates (first conjunct, for every fuel) - whereas the registration-time
walk the spec describes yields `[M1, M2, H]` with the late middleware M2
included (second conjunct). -/
theorem late_use_c3 :
    (∀ (fuel : Nat) (hs : List Nat),
        allHandlersFuel fuel (Use (Group st0C3 0 "/x" ([] : List Nat)).1 0 [2]) 1 hs = none)
    ∧ allHandlersSpec 2 (Use (Group st0C3 0 "/x" ([] : List Nat)).1 0 [2]) 1 [3]
        = some [1, 2, 3] := by
  refine ⟨fun fuel hs => allHandlers_stuck _ 1 ⟨[], "/x", some 0⟩ (by decide) rfl fuel hs, ?_⟩
  decide

/-- Claim C4: `GET`, `DELETE`, `PATCH` and `PUT` are exact wrappers over
`Handle` with their fixed method string. `POST` is not: it forwards its own
`method` argument to `Handle`, so `POST` called with method string "GET"
registers the route under "GET", not under "POST" as its documentation and
the claim state. -/
theorem method_shortcuts_c4 :
    (∀ (α : Type) (fuel : Nat) (st : Store α) (i : Nat) (p : String) (hs : List α),
        GET fuel st i p hs = Handle fuel st i "GET" p hs
        ∧ DELETE fuel st i p hs = Handle fuel st i "DELETE" p hs
        ∧ PATCH fuel st i p hs = Handle fuel st i "PATCH" p hs
        ∧ PUT fuel st i p hs = Handle fuel st i "PUT" p hs)
    ∧ (∀ (α : Type) (fuel : Nat) (st : Store α) (i : Nat) (method p : String) (hs : List α),
        POST fuel st i method p hs = Handle fuel st i method p hs)
    ∧ (POST 1 rootStoreNat 0 "GET" "/x" [7]).method = "GET"
    ∧ (POST 1 rootStoreNat 0 "GET" "/x" [7]).method ≠ "POST" :=
  ⟨fun _ _ _ _ _ _ => ⟨rfl, rfl, rfl, rfl⟩, fun _ _ _ _ _ _ _ => rfl, rfl, by decide⟩

/-- Claim C5: when the decode inside `ParseBody` fails, `ParseBody` returns
the outcome of the validation pass, not the decode error; when the decode
succeeds it returns no error. `EnsureBody` returns `true` exactly when
`ParseBody` returns no error, and on any `ParseBody` error performs
`Fail(400, err)` and returns `false`. -/
theorem parse_body_c5 :
    (∀ (e : GoError) (valRes : Option GoError), ParseBody (some e) valRes = valRes)
    ∧ (∀ valRes : Option GoError, ParseBody none valRes = none)
    ∧ (∀ (c : Ctx) (dec valRes : Option GoError),
        ((EnsureBody c dec valRes).2 = true ↔ ParseBody dec valRes = none))
    ∧ (∀ (c : Ctx) (d e : GoError), EnsureBody c (some d) (some e) = (Fail c 400 e, false))
    ∧ (∀ (c : Ctx) (dec : Option GoError), EnsureBody c dec none = (c, true)) := by
  refine ⟨fun e v => rfl, fun v => rfl, ?_, fun c d e => rfl, ?_⟩
  · intro c dec valRes; cases dec <;> cases valRes <;> simp [EnsureBody, ParseBody]
  · intro c dec; cases dec <;> rfl

/-- Claim C6: `Set(k, v)` followed by `Get(k)` returns `v` for every
non-absent `v`; `Get` on a key never set (any sequence of `Set`s of other
keys on a fresh context), or on a key set to the absent value, takes the
panic path (`none`) rather than returning a recoverable error. -/
theorem set_get_c6 :
    (∀ (c : Ctx) (k : String) (v : Val), v ≠ Val.vnil → Get (Set c k v) k = some v)
    ∧ (∀ (ops : List (String × Val)) (k : String), (∀ p ∈ ops, p.1 ≠ k) →
        Get (applySets createContext ops) k = none)
    ∧ (∀ (c : Ctx) (k : String), Get (Set c k Val.vnil) k = none) := by
  refine ⟨?_, ?_, ?_⟩
  · intro c k v hv; rw [Get_eq, keysLookup_set_self]; simp [hv]
  · intro ops k h; rw [Get_eq, keysLookup_applySets ops createContext k h]; rfl
  · intro c k; rw [Get_eq, keysLookup_set_self]; simp

/-- Witness for the C6 theorem at concrete inputs. -/
theorem set_get_c6_witness :
    (Val.vint 5 ≠ Val.vnil ∧ Get (Set createContext "k" (Val.vint 5)) "k" = some (Val.vint 5))
    ∧ ((∀ p ∈ [("a", Val.vint 1)], p.1 ≠ "k")
        ∧ Get (applySets createContext [("a", Val.vint 1)]) "k" = none) :=
  ⟨⟨by decide, set_get_c6.1 createContext "k" (Val.vint 5) (by decide)⟩,
   ⟨by decide, set_get_c6.2.1 [("a", Val.vint 1)] "k" (by decide)⟩⟩

/-- Claim C7: `Fail(code, err)` is exactly `Error(err, "Operation aborted")`
followed by `Abort(code)`: the error list gains exactly one entry carrying
the error's message and the meta string "Operation aborted", the recorded
status becomes `code`, and the cursor is forced to `AbortIndex`. -/
theorem fail_error_abort_c7 :
    ∀ (c : Ctx) (code : Int) (err : GoError),
      Fail c code err = Abort (Error c err (Val.vstr "Operation aborted")) code
      ∧ (Fail c code err).errors
          = c.errors ++ [{ message := err.msg, meta := Val.vstr "Operation aborted" }]
      ∧ (Fail c code err).status = code
      ∧ (Fail c code err).index = AbortIndex := by
  intro c code err
  exact ⟨rfl, rfl, rfl, rfl⟩

/-- Claim C8: `handle404` runs the fallback chain through the same machinery
as a matched route - `allHandlers` on the root composes the root group's
middleware before the installed 404 handlers (first conjunct) - and writes
the bare not-found response exactly when the response writer records no
written status after the chain ran (second conjunct); with no custom
fallback chain installed, a fresh engine yields the bare not-found response
with no handler invoked and no status written (third conjunct). -/
theorem handle404_c8 :
    (∀ (rootMW h404 : List Handler) (fuel : Nat),
        allHandlersFuel (fuel + 1) [⟨rootMW, "/", none⟩] 0 h404 = some (rootMW ++ h404))
    ∧ (∀ (fuel : Nat) (e : EngineM) (c : Ctx) (b : Bool),
        handle404 fuel e = some (c, b) → (b = true ↔ Written c = false))
    ∧ (handle404 5 New).map (fun p => (p.1.status, p.1.invoked, p.2)) = some (0, [], true) := by
  refine ⟨?_, ?_, by decide⟩
  · intro rootMW h404 fuel
    simp [allHandlersFuel]
  · intro fuel e c b h
    simp only [handle404] at h
    cases hA : allHandlersFuel fuel e.groups 0 e.handlers404 with
    | none => simp [hA] at h
    | some hs =>
      simp only [hA] at h
      cases hR : nextRun fuel hs createContext with
      | none => simp [hR] at h
      | some c' =>
        simp only [hR, Option.some.injEq, Prod.mk.injEq] at h
        obtain ⟨rfl, rfl⟩ := h
        cases hW : Written c' <;> simp [hW]

/-- Witness for the C8 theorem on the fresh engine `New`. -/
theorem handle404_c8_witness :
    handle404 5 New = some ({ createContext with index := 0 }, true)
    ∧ (true = true ↔ Written { createContext with index := 0 } = false) := by
  constructor
  · decide
  · exact handle404_c8.2.1 5 New { createContext with index := 0 } true (by decide)

/-- Claim C9: `JSON(code, obj)` writes the status code first, then sets the
JSON content type, then writes the serialized body; when encoding fails it
instead appends exactly one error entry (message = the encoder's error, meta
= the object) and performs the `http.Error` 500 plain-text path - with the
original status code already written before the 500. -/
theorem json_order_c9 :
    ∀ (c : Ctx) (code : Int) (obj : Val) (objRepr : String),
      ((JSON c code obj objRepr none).events
          = c.events ++ [REvent.status code,
              REvent.header "Content-Type" "application/json", REvent.body objRepr]
        ∧ (JSON c code obj objRepr none).errors = c.errors
        ∧ (JSON c code obj objRepr none).status = code)
      ∧ (∀ e : GoError,
          (JSON c code obj objRepr (some e)).errors
              = c.errors ++ [{ message := e.msg, meta := obj }]
            ∧ (JSON c code obj objRepr (some e)).events
              = c.events ++ [REvent.status code,
                  REvent.header "Content-Type" "application/json",
                  REvent.header "Content-Type" "text/plain; charset=utf-8",
                  REvent.status 500, REvent.body (e.msg ++ "\n")]
            ∧ (JSON c code obj objRepr (some e)).status = 500) := by
  intro c code obj objRepr
  refine ⟨⟨?_, rfl, rfl⟩, fun e => ⟨rfl, ?_, rfl⟩⟩ <;>
    simp [JSON, setHeaderW, writeHeaderW, writeBodyW, httpError, Error]

/-- Claim C10: `AbortIndex` is 63, so the abort guarantee is bounded by the
cursor's 8-bit representation: on chains of at most 64 handlers an aborted
cursor can never re-enter the loop (second conjunct), on a 65-handler chain
the handler at position 64 still executes after an abort at position 0
(third conjunct), and for chains of more than 127 handlers the `int8`
conversion of the chain length wraps around (fourth conjunct). -/
theorem abort_sentinel_bound_c10 :
    AbortIndex = 63
    ∧ (∀ (ch : Chain) (c : Ctx) (fuel : Nat), ch.length ≤ 64 → c.index = AbortIndex →
        nextRun (fuel + 2) ch c = some { c with index := 64 })
    ∧ (nextRun 50 chain65 createContext).map (fun c => c.invoked) = some [0, 64]
    ∧ (∀ ch : Chain, 127 < ch.length → int8ofNat ch.length ≠ (ch.length : Int)) := by
  refine ⟨by decide, fun ch c fuel h1 h2 => nextRun_aborted fuel ch c h1 h2, by decide, ?_⟩
  intro ch h heq
  have hb := int8wrap_bounds (ch.length : Int)
  unfold int8ofNat at heq
  omega

/-- Witness for the C10 theorem at concrete inputs. -/
theorem abort_sentinel_bound_c10_witness :
    (nextRun 2 ([] : Chain) { createContext with index := AbortIndex }
        = some { { createContext with index := AbortIndex } with index := 64 })
    ∧ int8ofNat chain128.length ≠ (chain128.length : Int) := by
  constructor
  · exact abort_sentinel_bound_c10.2.1 [] _ 0 (by decide) rfl
  · exact abort_sentinel_bound_c10.2.2.2 chain128 (by simp [chain128])

end Engine
